import Mathlib

/-!
Verification development for the simulink_gym repository: a Python wrapper
exposing Simulink models through the Gym environment interface.  The
repository's networking/environment core (Frame Codec, Communication Socket,
Simulation Process Supervisor, Episode State Machine) is specified in the
design document; the shallow embedding below models those components and the
cart-pole parameter script, and proves the testable properties stated about
them.  Numeric scalars are modelled at the byte level: each configured signal
occupies a fixed width of `w` bytes on the wire, little-endian, and a scalar
value is identified with its `w`-byte machine representation (a natural
number below `256 ^ w`); this makes byte-level encode/decode exact, which is
the wire-level content of the round-trip properties.
-/

namespace SimulinkGym

/-- Error taxonomy of the design: framing errors are malformed or truncated
frame bytes, connection errors are peer failures, protocol violations are
caller errors such as stepping a closed environment. -/
inductive ErrKind where
  | framingError
  | connectionError
  | protocolViolation
  | supervisorError
deriving DecidableEq

/-- A logical frame delivered by the communication socket: either the
zero-length end-of-simulation sentinel or a fixed-width byte payload. -/
inductive Frame where
  | sentinel
  | payload (bytes : List Nat)
deriving DecidableEq

/-- Modelled from the spec: little-endian fixed-width encoding of one scalar
into `w` bytes (the Frame Codec's per-scalar serializer; the Python codec
`simulink_gym/utils/comm_socket.py` is not among the provided sources). -/
def encodeScalar : Nat → Nat → List Nat
  | 0, _ => []
  | w + 1, v => v % 256 :: encodeScalar w (v / 256)

/-- Modelled from the spec: little-endian decoding of a byte list back into
a scalar value. -/
def decodeScalar : List Nat → Nat
  | [] => 0
  | b :: rest => b + 256 * decodeScalar rest

/-- Modelled from the spec: `encode_action` packs a numeric vector as the
concatenation of the little-endian fixed-width encodings of its scalars,
with no headers (§4.1 of the design). -/
def encode_action (w : Nat) (values : List Nat) : List Nat :=
  (values.map (encodeScalar w)).flatten

/-- Modelled from the spec: decode `n` consecutive `w`-byte scalars from the
front of a byte list. -/
def decodeVector (w : Nat) : Nat → List Nat → List Nat
  | 0, _ => []
  | n + 1, bytes => decodeScalar (bytes.take w) :: decodeVector w n (bytes.drop w)

/-- Result of decoding one inbound frame: either the distinguished
end-of-simulation marker or an observation vector with its simulation
timestamp. -/
inductive DecodedObs where
  | endOfSimulation
  | obs (values : List Nat) (timestamp : Nat)
deriving DecidableEq

/-- Modelled from the spec: `decode_observation` maps a zero-length payload
to the end-of-simulation marker, a payload of exactly `(nObs + 1) * w` bytes
to an observation vector plus trailing simulation-time scalar, and anything
else to a `FramingError` (§4.1, §6 of the design; the Python codec source is
not provided). -/
def decode_observation (w nObs : Nat) (bytes : List Nat) : Except ErrKind DecodedObs :=
  if bytes = [] then .ok .endOfSimulation
  else if bytes.length = (nObs + 1) * w then
    .ok (.obs (decodeVector w nObs bytes) (decodeScalar (bytes.drop (nObs * w))))
  else .error .framingError

/-- Bytes of one inbound observation frame carrying observation vector `o`
and simulation timestamp `t`: the encoded vector followed by the encoded
timestamp scalar (§3 of the design). -/
def frameBytesOf (w : Nat) (o : List Nat) (t : Nat) : List Nat :=
  encode_action w o ++ encodeScalar w t

/-- State of the communication socket's inbound side: bytes already read but
not yet consumed (`buf`) and the chunks the transport will still deliver
(`chunks`); the end of the chunk list models the peer closing the stream. -/
structure ReceiveState where
  buf : List Nat
  chunks : List (List Nat)
deriving DecidableEq

/-- All bytes a receive state can still deliver, in order. -/
def totalBytes (s : ReceiveState) : List Nat :=
  s.buf ++ s.chunks.flatten

/-- Modelled from the spec: the loop inside `receive()` of the communication
socket (`simulink_gym/utils/comm_socket.py`, not among the provided
sources).  It accumulates partial transport reads until one complete
`w`-byte frame is assembled; a stream that ends cleanly with an empty buffer
is the zero-length end-of-simulation sentinel, and a stream that ends with a
partial frame is a framing error (§4.2, §8.7 of the design). -/
def receiveAux (w : Nat) : List (List Nat) → List Nat → Except ErrKind (Frame × ReceiveState)
  | chunks, buf =>
    if w ≤ buf.length then .ok (.payload (buf.take w), ⟨buf.drop w, chunks⟩)
    else
      match chunks with
      | [] => if buf = [] then .ok (.sentinel, ⟨[], []⟩) else .error .framingError
      | c :: rest => receiveAux w rest (buf ++ c)

/-- Modelled from the spec: `receive()` blocks until exactly one complete
logical frame of `w` bytes is available, looping over partial transport
reads. -/
def receive (w : Nat) (s : ReceiveState) : Except ErrKind (Frame × ReceiveState) :=
  receiveAux w s.chunks s.buf

/-- Episode phase of the state machine (§3 of the design), extended with an
`errored` phase capturing §7's requirement that after a fatal transport
error the environment only accepts `close()`. -/
inductive Phase where
  | unstarted
  | awaitingInitialObservation
  | running
  | terminating
  | closed
  | errored
deriving DecidableEq

/-- Dictionary of auxiliary transition information returned to the caller. -/
def InfoDict : Type := List (String × Nat)

/-- Static configuration of an environment: scalar byte width `w`,
observation arity `nObs`, the environment-specific reward capability and the
locally tracked truncation predicate over the step counter (§4.4 and §9 of
the design leave both to the concrete environment). -/
structure Config where
  w : Nat
  nObs : Nat
  rewardFn : List Nat → Int
  truncatedFn : Nat → Bool

/-- Width in bytes of one full inbound observation frame: `nObs` observation
scalars plus the trailing simulation-time scalar. -/
def Config.frameWidth (cfg : Config) : Nat :=
  (cfg.nObs + 1) * cfg.w

/-- Modelled from the spec: the in-memory state of one environment instance
(`simulink_gym/environment.py`, not among the provided sources): episode
phase, the socket's receive state, the debug flag, whether the supervisor
spawned a background simulation context, and the values of the last
delivered transition (needed because the sentinel step repeats them). -/
structure SimulinkEnv where
  debug : Bool
  supervisorSpawned : Bool
  phase : Phase
  recvState : ReceiveState
  lastObs : List Nat
  lastReward : Int
  lastInfo : List (String × Nat)
  stepCount : Nat
deriving DecidableEq

/-- Environment construction: binds the channel lazily; no simulation
context is spawned at construction time (the supervisor starts, if at all,
on the transition out of UNSTARTED during reset, §4.4). -/
def mkEnv (debug : Bool) : SimulinkEnv :=
  { debug := debug
    supervisorSpawned := false
    phase := .unstarted
    recvState := ⟨[], []⟩
    lastObs := []
    lastReward := 0
    lastInfo := []
    stepCount := 0 }

/-- One environment transition as returned by `step`: the five-tuple
(observation, reward, terminated, truncated, info) of the Gym interface. -/
structure Transition where
  observation : List Nat
  reward : Int
  terminated : Bool
  truncated : Bool
  info : List (String × Nat)
deriving DecidableEq

/-- Outcome of a `step` call: a transition plus the successor environment, or
a raised error plus the environment left behind. -/
inductive StepOut where
  | ok (tr : Transition) (e : SimulinkEnv)
  | fail (err : ErrKind) (e : SimulinkEnv)
deriving DecidableEq

/-- Environment carried by a step outcome. -/
def stepOutEnv : StepOut → SimulinkEnv
  | .ok _ e => e
  | .fail _ e => e

/-- Modelled from the spec: `step(action)` of the episode state machine
(§4.4; the Python `sim_step`/`step` source is not provided).  Valid only
while RUNNING; sends the encoded action, receives exactly one frame; a
normal observation frame keeps the machine RUNNING and returns a fresh
transition with `terminated := false`; the zero-length sentinel moves it to
TERMINATING and returns `terminated := true` with stale repeats of the
previous observation, reward and info; a framing error moves the machine to
the errored phase, from which every further step is rejected with a
protocol violation without touching the transport. -/
def step (cfg : Config) (env : SimulinkEnv) (action : List Nat) : StepOut :=
  if env.phase = Phase.running then
    let _sent := encode_action cfg.w action
    match receive cfg.frameWidth env.recvState with
    | .error _ => .fail .framingError { env with phase := .errored }
    | .ok (.sentinel, rs) =>
        .ok
          { observation := env.lastObs
            reward := env.lastReward
            terminated := true
            truncated := false
            info := env.lastInfo }
          { env with phase := .terminating, recvState := rs }
    | .ok (.payload bytes, rs) =>
        match decode_observation cfg.w cfg.nObs bytes with
        | .ok (.obs o t) =>
            let rew := cfg.rewardFn o
            let info : List (String × Nat) := [("simulation time [s]", t)]
            .ok
              { observation := o
                reward := rew
                terminated := false
                truncated := cfg.truncatedFn (env.stepCount + 1)
                info := info }
              { env with recvState := rs, lastObs := o, lastReward := rew,
                         lastInfo := info, stepCount := env.stepCount + 1 }
        | .ok .endOfSimulation =>
            .ok
              { observation := env.lastObs
                reward := env.lastReward
                terminated := true
                truncated := false
                info := env.lastInfo }
              { env with phase := .terminating, recvState := rs }
        | .error _ => .fail .framingError { env with phase := .errored }
  else .fail .protocolViolation env

/-- Outcome of a `reset` call: blocked waiting for the peer to connect, a
successful (observation, info) pair plus successor environment, or a raised
error. -/
inductive ResetOut where
  | blocked (e : SimulinkEnv)
  | ok (observation : List Nat) (info : List (String × Nat)) (e : SimulinkEnv)
  | fail (err : ErrKind) (e : SimulinkEnv)
deriving DecidableEq

/-- Environment carried by a reset outcome. -/
def resetOutEnv : ResetOut → SimulinkEnv
  | .blocked e => e
  | .ok _ _ e => e
  | .fail _ e => e

/-- Modelled from the spec: `reset(seed, options)` of the episode state
machine (§4.4; the Python source is not provided).  Valid from UNSTARTED or
RUNNING/TERMINATING; it establishes a fresh channel for the episode, starts
the supervisor only when the debug flag is off, then blocks until an
external peer connects (`peer = none` models no peer having connected yet);
once connected it receives and decodes the initial observation frame and
enters RUNNING, returning the (observation, info) pair.  The seed and
options are consumed by the environment-specific reset capability, not by
the generic state machine. -/
def reset (cfg : Config) (env : SimulinkEnv) (seed : Option Nat)
    (options : List (String × Nat)) (peer : Option (List (List Nat))) : ResetOut :=
  if env.phase = Phase.closed ∨ env.phase = Phase.errored then
    .fail .protocolViolation env
  else
    let _seed := seed
    let _options := options
    let env1 := { env with phase := Phase.awaitingInitialObservation,
                           supervisorSpawned := !env.debug,
                           recvState := (⟨[], []⟩ : ReceiveState) }
    match peer with
    | none => .blocked env1
    | some chunks =>
        match receive cfg.frameWidth ⟨[], chunks⟩ with
        | .error _ => .fail .framingError { env1 with phase := .errored }
        | .ok (.sentinel, _) => .fail .connectionError { env1 with phase := .errored }
        | .ok (.payload bytes, rs) =>
            match decode_observation cfg.w cfg.nObs bytes with
            | .ok (.obs o t) =>
                let info : List (String × Nat) := [("simulation time [s]", t)]
                .ok o info
                  { env1 with phase := .running, recvState := rs, lastObs := o,
                              lastReward := 0, lastInfo := info, stepCount := 0 }
            | _ => .fail .framingError { env1 with phase := .errored }

/-- Modelled from the spec: `close()` releases the channel, stops the
supervisor best-effort and moves to CLOSED; it is a total function (it never
raises and never blocks) and is idempotent (§4.4, §8.6). -/
def close (env : SimulinkEnv) : SimulinkEnv :=
  { env with phase := Phase.closed
             supervisorSpawned := false
             recvState := (⟨[], []⟩ : ReceiveState) }

/-- Run `k` successive `step` calls with a fixed action, collecting each
call's outcome. -/
def runEpisode (cfg : Config) (a : List Nat) : Nat → SimulinkEnv → List StepOut
  | 0, _ => []
  | k + 1, env =>
      let r := step cfg env a
      r :: runEpisode cfg a k (stepOutEnv r)

/-- Observation a terminal sentinel step repeats: the last scripted frame's
observation, or the pre-episode stored observation when no normal frame was
delivered. -/
def lastObsOf (L : List (List Nat × Nat)) (env : SimulinkEnv) : List Nat :=
  match L.getLast? with
  | some p => p.1
  | none => env.lastObs

/-- Reward a terminal sentinel step repeats. -/
def lastRewardOf (cfg : Config) (L : List (List Nat × Nat)) (env : SimulinkEnv) : Int :=
  match L.getLast? with
  | some p => cfg.rewardFn p.1
  | none => env.lastReward

/-- Bytes of the frame carrying a scripted (observation, timestamp) pair. -/
def frameBytes (cfg : Config) (p : List Nat × Nat) : List Nat :=
  frameBytesOf cfg.w p.1 p.2

/-- Parameters set by the cart-pole parameter script
(`src/simulink_block_lib/slblocks.m`, lines 13-27): general, cart and pole
parameters as exact rationals. -/
structure CartpoleParams where
  tsim_s : ℚ
  g : ℚ
  dT : ℚ
  cart_mass_kg : ℚ
  cart_x0 : ℚ
  pole_mass_kg : ℚ
  pole_length_m : ℚ
  theta0_deg : ℚ

/-- One evaluation of the cart-pole parameter script.  MATLAB's `rand(1)`
draw is modelled by the parameter `r`; MATLAB guarantees `r` lies in the
open interval (0,1), which the theorems relax to `0 ≤ r < 1`.  All other
fields are the literal constants of the script. -/
def cartpoleParams (r : ℚ) : CartpoleParams :=
  { tsim_s := 10
    g := 9.80665
    dT := 0.001
    cart_mass_kg := 1
    cart_x0 := 0
    pole_mass_kg := 0.1
    pole_length_m := 0.5
    theta0_deg := 24 * r - 12 }

/-- Concrete configuration used to evaluate the theorems on explicit
inputs: one-byte scalars, one observation dimension, reward equal to the
head observation scalar, no local truncation limit. -/
def witCfg : Config :=
  { w := 1
    nObs := 1
    rewardFn := fun o => (o.headD 0 : Int)
    truncatedFn := fun _ => false }

/-- Concrete RUNNING environment whose channel holds two scripted
observation frames ([5] at time 7 and [9] at time 11) followed by the end
of the stream, the frames split across partial reads. -/
def witEnv : SimulinkEnv :=
  { debug := false
    supervisorSpawned := true
    phase := .running
    recvState := ⟨[5, 7], [[9, 11]]⟩
    lastObs := [3]
    lastReward := 3
    lastInfo := []
    stepCount := 0 }

/-- Scripted peer trace matching `witEnv`: two (observation, timestamp)
pairs. -/
def witL : List (List Nat × Nat) := [([5], 7), ([9], 11)]

/-- Concrete RUNNING environment whose channel holds one byte and then the
end of the stream: a truncated frame for the two-byte frame width of
`witCfg`. -/
def witEnvTrunc : SimulinkEnv :=
  { witEnv with recvState := ⟨[9], []⟩ }

theorem encodeScalar_length (w v : Nat) : (encodeScalar w v).length = w := by
  induction w generalizing v with
  | zero => rfl
  | succ w ih => simp [encodeScalar, ih]

theorem decodeScalar_encodeScalar (w v : Nat) :
    decodeScalar (encodeScalar w v) = v % 256 ^ w := by
  induction w generalizing v with
  | zero => simp [encodeScalar, decodeScalar, Nat.mod_one]
  | succ w ih =>
      rw [encodeScalar, decodeScalar, ih]
      rw [pow_succ, mul_comm (256 ^ w) 256, Nat.mod_mul]

theorem decodeScalar_encodeScalar_of_lt {w v : Nat} (h : v < 256 ^ w) :
    decodeScalar (encodeScalar w v) = v := by
  rw [decodeScalar_encodeScalar, Nat.mod_eq_of_lt h]

theorem encode_action_nil (w : Nat) : encode_action w [] = [] := by
  simp [encode_action]

theorem encode_action_cons (w : Nat) (v : Nat) (vs : List Nat) :
    encode_action w (v :: vs) = encodeScalar w v ++ encode_action w vs := by
  simp [encode_action]

theorem encode_action_length (w : Nat) (vs : List Nat) :
    (encode_action w vs).length = vs.length * w := by
  induction vs with
  | nil => simp [encode_action]
  | cons v vs ih =>
      rw [encode_action_cons]
      simp [encodeScalar_length, ih, Nat.succ_mul, Nat.add_comm]

theorem decodeVector_encode (w : Nat) (vs rest : List Nat)
    (h : ∀ x ∈ vs, x < 256 ^ w) :
    decodeVector w vs.length (encode_action w vs ++ rest) = vs := by
  induction vs generalizing rest with
  | nil => rfl
  | cons v vs ih =>
      rw [encode_action_cons, List.append_assoc]
      show decodeScalar ((encodeScalar w v ++ (encode_action w vs ++ rest)).take w) ::
        decodeVector w vs.length ((encodeScalar w v ++ (encode_action w vs ++ rest)).drop w) =
        v :: vs
      rw [List.take_left' (encodeScalar_length w v), List.drop_left' (encodeScalar_length w v)]
      rw [decodeScalar_encodeScalar_of_lt (h v (List.mem_cons_self v vs))]
      rw [ih rest fun x hx => h x (List.mem_cons_of_mem v hx)]

theorem frameBytesOf_length (w : Nat) (o : List Nat) (t : Nat) :
    (frameBytesOf w o t).length = (o.length + 1) * w := by
  simp [frameBytesOf, encode_action_length, encodeScalar_length, Nat.succ_mul]

theorem decode_observation_frameBytesOf (w : Nat) (o : List Nat) (t : Nat)
    (hw : 0 < w) (ho : ∀ x ∈ o, x < 256 ^ w) (ht : t < 256 ^ w) :
    decode_observation w o.length (frameBytesOf w o t) = .ok (.obs o t) := by
  have hlen : (frameBytesOf w o t).length = (o.length + 1) * w := frameBytesOf_length w o t
  have hne : frameBytesOf w o t ≠ [] := by
    intro hcontra
    rw [hcontra] at hlen
    simp at hlen
    omega
  rw [decode_observation, if_neg hne, if_pos hlen]
  have hdropeq : (frameBytesOf w o t).drop (o.length * w) = encodeScalar w t := by
    rw [frameBytesOf]
    have h1 : (encode_action w o).length = o.length * w := encode_action_length w o
    rw [List.drop_left' h1]
  have hvec : decodeVector w o.length (frameBytesOf w o t) = o := by
    rw [frameBytesOf]
    exact decodeVector_encode w o (encodeScalar w t) ho
  rw [hvec, hdropeq, decodeScalar_encodeScalar_of_lt ht]

theorem receiveAux_complete (w : Nat) :
    ∀ (chunks : List (List Nat)) (buf : List Nat),
      w ≤ (buf ++ chunks.flatten).length →
      ∃ s' : ReceiveState,
        receiveAux w chunks buf = .ok (.payload ((buf ++ chunks.flatten).take w), s') ∧
        totalBytes s' = (buf ++ chunks.flatten).drop w := by
  intro chunks
  induction chunks with
  | nil =>
      intro buf h
      simp only [List.flatten_nil, List.append_nil] at h ⊢
      refine ⟨⟨buf.drop w, []⟩, ?_, ?_⟩
      · rw [receiveAux, if_pos h]
      · simp [totalBytes]
  | cons c rest ih =>
      intro buf h
      by_cases hb : w ≤ buf.length
      · refine ⟨⟨buf.drop w, c :: rest⟩, ?_, ?_⟩
        · rw [receiveAux, if_pos hb]
          rw [List.take_append_of_le_length hb]
        · rw [totalBytes]
          simp only
          rw [List.drop_append_of_le_length hb]
      · have harr : buf ++ (c :: rest).flatten = (buf ++ c) ++ rest.flatten := by
          rw [List.flatten_cons, List.append_assoc]
        rw [harr] at h ⊢
        obtain ⟨s', hs', hbytes⟩ := ih (buf ++ c) h
        refine ⟨s', ?_, hbytes⟩
        rw [receiveAux, if_neg hb]
        exact hs'

theorem receiveAux_eof (w : Nat) :
    ∀ (chunks : List (List Nat)) (buf : List Nat),
      (buf ++ chunks.flatten).length < w →
      receiveAux w chunks buf =
        if buf ++ chunks.flatten = [] then .ok (.sentinel, ⟨[], []⟩)
        else .error .framingError := by
  intro chunks
  induction chunks with
  | nil =>
      intro buf h
      simp only [List.flatten_nil, List.append_nil] at h ⊢
      rw [receiveAux, if_neg (by omega)]
  | cons c rest ih =>
      intro buf h
      have harr : buf ++ (c :: rest).flatten = (buf ++ c) ++ rest.flatten := by
        rw [List.flatten_cons, List.append_assoc]
      rw [harr] at h ⊢
      have hb : ¬ w ≤ buf.length := by
        have := List.length_append (buf ++ c) rest.flatten
        have := List.length_append buf c
        omega
      rw [receiveAux, if_neg hb]
      exact ih (buf ++ c) h

theorem receive_complete (w : Nat) (s : ReceiveState) (h : w ≤ (totalBytes s).length) :
    ∃ s' : ReceiveState,
      receive w s = .ok (.payload ((totalBytes s).take w), s') ∧
      totalBytes s' = (totalBytes s).drop w :=
  receiveAux_complete w s.chunks s.buf h

theorem receive_sentinel (w : Nat) (s : ReceiveState) (hw : 0 < w)
    (h : totalBytes s = []) : receive w s = .ok (.sentinel, ⟨[], []⟩) := by
  have := receiveAux_eof w s.chunks s.buf (by rw [show s.buf ++ s.chunks.flatten = totalBytes s from rfl, h]; simpa using hw)
  rw [receive, this, if_pos (show s.buf ++ s.chunks.flatten = [] from h)]

theorem receive_truncated (w : Nat) (s : ReceiveState)
    (hne : totalBytes s ≠ []) (hlt : (totalBytes s).length < w) :
    receive w s = .error .framingError := by
  have := receiveAux_eof w s.chunks s.buf hlt
  rw [receive, this, if_neg (show ¬ s.buf ++ s.chunks.flatten = [] from hne)]

theorem runEpisode_length (cfg : Config) (a : List Nat) :
    ∀ (k : Nat) (env : SimulinkEnv), (runEpisode cfg a k env).length = k := by
  intro k
  induction k with
  | zero => intro env; rfl
  | succ k ih => intro env; simp [runEpisode, ih]

theorem frameWidth_pos (cfg : Config) (hw : 0 < cfg.w) : 0 < cfg.frameWidth :=
  Nat.mul_pos (Nat.succ_pos cfg.nObs) hw

theorem step_normal (cfg : Config) (env : SimulinkEnv) (a : List Nat)
    (o : List Nat) (t : Nat) (rest : List Nat)
    (hrun : env.phase = .running) (hw : 0 < cfg.w)
    (hlen : o.length = cfg.nObs)
    (ho : ∀ x ∈ o, x < 256 ^ cfg.w) (ht : t < 256 ^ cfg.w)
    (hbytes : totalBytes env.recvState = frameBytesOf cfg.w o t ++ rest) :
    ∃ e' : SimulinkEnv,
      step cfg env a =
        .ok { observation := o, reward := cfg.rewardFn o, terminated := false,
              truncated := cfg.truncatedFn (env.stepCount + 1),
              info := [("simulation time [s]", t)] } e' ∧
      e'.phase = .running ∧ totalBytes e'.recvState = rest ∧
      e'.lastObs = o ∧ e'.lastReward = cfg.rewardFn o ∧
      e'.lastInfo = [("simulation time [s]", t)] ∧
      e'.stepCount = env.stepCount + 1 ∧
      e'.debug = env.debug ∧ e'.supervisorSpawned = env.supervisorSpawned := by
  have hfw : (frameBytesOf cfg.w o t).length = cfg.frameWidth := by
    rw [frameBytesOf_length, hlen]; rfl
  have hle : cfg.frameWidth ≤ (totalBytes env.recvState).length := by
    rw [hbytes, List.length_append, hfw]; omega
  obtain ⟨s', hrecv, hs'⟩ := receive_complete cfg.frameWidth env.recvState hle
  have htake : (totalBytes env.recvState).take cfg.frameWidth = frameBytesOf cfg.w o t := by
    rw [hbytes, List.take_left' hfw]
  have hdrop : (totalBytes env.recvState).drop cfg.frameWidth = rest := by
    rw [hbytes, List.drop_left' hfw]
  rw [htake] at hrecv
  rw [hdrop] at hs'
  have hdec : decode_observation cfg.w cfg.nObs (frameBytesOf cfg.w o t) = .ok (.obs o t) := by
    rw [← hlen]
    exact decode_observation_frameBytesOf cfg.w o t hw ho ht
  refine ⟨{ env with
              recvState := s'
              lastObs := o
              lastReward := cfg.rewardFn o
              lastInfo := [("simulation time [s]", t)]
              stepCount := env.stepCount + 1 }, ?_, hrun, hs', rfl, rfl, rfl, rfl, rfl, rfl⟩
  unfold step
  rw [if_pos hrun]
  simp only [hrecv, hdec]

theorem step_sentinel (cfg : Config) (env : SimulinkEnv) (a : List Nat)
    (hrun : env.phase = .running) (hw : 0 < cfg.w)
    (hbytes : totalBytes env.recvState = []) :
    step cfg env a =
      .ok { observation := env.lastObs, reward := env.lastReward,
            terminated := true, truncated := false, info := env.lastInfo }
        { env with phase := .terminating, recvState := (⟨[], []⟩ : ReceiveState) } := by
  have hrecv := receive_sentinel cfg.frameWidth env.recvState (frameWidth_pos cfg hw) hbytes
  unfold step
  rw [if_pos hrun]
  simp only [hrecv]

theorem step_not_running (cfg : Config) (env : SimulinkEnv) (a : List Nat)
    (h : env.phase ≠ .running) :
    step cfg env a = .fail .protocolViolation env := by
  unfold step
  rw [if_neg h]

theorem step_truncated_frame (cfg : Config) (env : SimulinkEnv) (a : List Nat)
    (hrun : env.phase = .running)
    (hne : totalBytes env.recvState ≠ [])
    (hlt : (totalBytes env.recvState).length < cfg.frameWidth) :
    step cfg env a = .fail .framingError { env with phase := .errored } := by
  have hrecv := receive_truncated cfg.frameWidth env.recvState hne hlt
  unfold step
  rw [if_pos hrun]
  simp only [hrecv]

theorem reset_blocked (cfg : Config) (env : SimulinkEnv) (seed : Option Nat)
    (options : List (String × Nat))
    (hnc : env.phase ≠ .closed) (hne : env.phase ≠ .errored) :
    reset cfg env seed options none =
      .blocked { env with phase := Phase.awaitingInitialObservation,
                          supervisorSpawned := !env.debug,
                          recvState := (⟨[], []⟩ : ReceiveState) } := by
  unfold reset
  rw [if_neg (by simp [hnc, hne])]

theorem reset_truncated_frame (cfg : Config) (env : SimulinkEnv) (seed : Option Nat)
    (options : List (String × Nat)) (chunks : List (List Nat))
    (hnc : env.phase ≠ .closed) (hne : env.phase ≠ .errored)
    (hnonempty : chunks.flatten ≠ [])
    (hlt : chunks.flatten.length < cfg.frameWidth) :
    reset cfg env seed options (some chunks) =
      .fail .framingError
        { env with phase := .errored,
                   supervisorSpawned := !env.debug,
                   recvState := (⟨[], []⟩ : ReceiveState) } := by
  have hrecv : receive cfg.frameWidth ⟨[], chunks⟩ = .error .framingError := by
    apply receive_truncated
    · simpa [totalBytes] using hnonempty
    · simpa [totalBytes] using hlt
  unfold reset
  rw [if_neg (by simp [hnc, hne])]
  simp only [hrecv]

theorem lastObsOf_cons (p : List Nat × Nat) (L : List (List Nat × Nat))
    (env e₁ : SimulinkEnv) (h : e₁.lastObs = p.1) :
    lastObsOf L e₁ = lastObsOf (p :: L) env := by
  cases L with
  | nil => simp [lastObsOf, h]
  | cons q rest =>
      simp only [lastObsOf, List.getLast?_cons_cons]
      cases hgl : (q :: rest).getLast? with
      | none =>
          have : (q :: rest) ≠ [] := by simp
          rw [List.getLast?_eq_none_iff] at hgl
          exact absurd hgl this
      | some r => rfl

theorem lastRewardOf_cons (cfg : Config) (p : List Nat × Nat)
    (L : List (List Nat × Nat)) (env e₁ : SimulinkEnv)
    (h : e₁.lastReward = cfg.rewardFn p.1) :
    lastRewardOf cfg L e₁ = lastRewardOf cfg (p :: L) env := by
  cases L with
  | nil => simp [lastRewardOf, h]
  | cons q rest =>
      simp only [lastRewardOf, List.getLast?_cons_cons]
      cases hgl : (q :: rest).getLast? with
      | none =>
          have : (q :: rest) ≠ [] := by simp
          rw [List.getLast?_eq_none_iff] at hgl
          exact absurd hgl this
      | some r => rfl

theorem runEpisode_spec (cfg : Config) (a : List Nat) :
    ∀ (L : List (List Nat × Nat)) (env : SimulinkEnv),
      env.phase = .running → 0 < cfg.w →
      (∀ p ∈ L, p.1.length = cfg.nObs ∧ (∀ x ∈ p.1, x < 256 ^ cfg.w) ∧ p.2 < 256 ^ cfg.w) →
      totalBytes env.recvState = (L.map (frameBytes cfg)).flatten →
      (∀ i, i < L.length →
        ∃ tr e p, (runEpisode cfg a (L.length + 1) env)[i]? = some (StepOut.ok tr e) ∧
          L[i]? = some p ∧ tr.terminated = false ∧
          tr.observation = p.1 ∧ tr.reward = cfg.rewardFn p.1) ∧
      (∃ tr e, (runEpisode cfg a (L.length + 1) env)[L.length]? = some (StepOut.ok tr e) ∧
        tr.terminated = true ∧ tr.observation = lastObsOf L env ∧
        tr.reward = lastRewardOf cfg L env) := by
  intro L
  induction L with
  | nil =>
      intro env hrun hw _hvals hbytes
      have hb : totalBytes env.recvState = [] := by simpa using hbytes
      have hstep := step_sentinel cfg env a hrun hw hb
      constructor
      · intro i hi
        simp at hi
      · refine ⟨{ observation := env.lastObs, reward := env.lastReward,
                  terminated := true, truncated := false, info := env.lastInfo },
                { env with phase := .terminating, recvState := (⟨[], []⟩ : ReceiveState) },
                ?_, rfl, rfl, rfl⟩
        show (runEpisode cfg a 1 env)[0]? = _
        have h1 : runEpisode cfg a 1 env = [step cfg env a] := rfl
        rw [h1, hstep]
        rfl
  | cons p L' ih =>
      intro env hrun hw hvals hbytes
      obtain ⟨hplen, hpvals, hpt⟩ := hvals p (List.mem_cons_self p L')
      have hbytes' : totalBytes env.recvState =
          frameBytesOf cfg.w p.1 p.2 ++ (L'.map (frameBytes cfg)).flatten := by
        simpa [frameBytes, List.map_cons, List.flatten_cons] using hbytes
      obtain ⟨e₁, hstep, he₁run, he₁bytes, he₁obs, he₁rew, _he₁info, _he₁cnt, _he₁dbg, _he₁sup⟩ :=
        step_normal cfg env a p.1 p.2 _ hrun hw hplen hpvals hpt hbytes'
      have hvals' : ∀ q ∈ L', q.1.length = cfg.nObs ∧ (∀ x ∈ q.1, x < 256 ^ cfg.w) ∧
          q.2 < 256 ^ cfg.w := fun q hq => hvals q (List.mem_cons_of_mem p hq)
      have IH := ih e₁ he₁run hw hvals' he₁bytes
      have houts : runEpisode cfg a ((p :: L').length + 1) env =
          StepOut.ok
            { observation := p.1, reward := cfg.rewardFn p.1, terminated := false,
              truncated := cfg.truncatedFn (env.stepCount + 1),
              info := [("simulation time [s]", p.2)] } e₁ ::
            runEpisode cfg a (L'.length + 1) e₁ := by
        have h1 : runEpisode cfg a ((p :: L').length + 1) env =
            step cfg env a ::
              runEpisode cfg a (L'.length + 1) (stepOutEnv (step cfg env a)) := rfl
        rw [h1, hstep]
        rfl
      constructor
      · intro i hi
        cases i with
        | zero =>
            refine ⟨{ observation := p.1, reward := cfg.rewardFn p.1, terminated := false,
                      truncated := cfg.truncatedFn (env.stepCount + 1),
                      info := [("simulation time [s]", p.2)] },
                    e₁, p, ?_, by simp, rfl, rfl, rfl⟩
            rw [houts]
            rfl
        | succ i =>
            have hi' : i < L'.length := by simpa using hi
            obtain ⟨tr, e, q, hidx, hq, hterm, hobs, hrew⟩ := IH.1 i hi'
            refine ⟨tr, e, q, ?_, ?_, hterm, hobs, hrew⟩
            · rw [houts]
              simpa using hidx
            · simpa using hq
      · obtain ⟨tr, e, hidx, hterm, hobs, hrew⟩ := IH.2
        refine ⟨tr, e, ?_, hterm, ?_, ?_⟩
        · rw [houts]
          have : (p :: L').length = L'.length + 1 := rfl
          rw [this]
          simpa using hidx
        · rw [hobs]
          exact lastObsOf_cons p L' env e₁ he₁obs
        · rw [hrew]
          exact lastRewardOf_cons cfg p L' env e₁ he₁rew

/-- C1: for every episode in which the peer sends a sequence of normal
observation frames followed by one zero-length sentinel frame, the step call
that receives the sentinel returns terminated=True while the observation and
reward it returns are repeats of the values returned by the immediately
preceding step, and every earlier step call of that episode returns
terminated=False. -/
theorem claim1_terminal_duplication (cfg : Config) (a : List Nat)
    (env : SimulinkEnv) (L : List (List Nat × Nat))
    (hrun : env.phase = .running) (hw : 0 < cfg.w) (hL : L ≠ [])
    (hvals : ∀ p ∈ L, p.1.length = cfg.nObs ∧ (∀ x ∈ p.1, x < 256 ^ cfg.w) ∧
      p.2 < 256 ^ cfg.w)
    (hbytes : totalBytes env.recvState = (L.map (frameBytes cfg)).flatten) :
    (∀ i, i < L.length →
      ∃ tr e, (runEpisode cfg a (L.length + 1) env)[i]? = some (StepOut.ok tr e) ∧
        tr.terminated = false) ∧
    (∃ trPrev ePrev trLast eLast,
      (runEpisode cfg a (L.length + 1) env)[L.length - 1]? =
        some (StepOut.ok trPrev ePrev) ∧
      (runEpisode cfg a (L.length + 1) env)[L.length]? =
        some (StepOut.ok trLast eLast) ∧
      trLast.terminated = true ∧
      trLast.observation = trPrev.observation ∧
      trLast.reward = trPrev.reward) := by
  obtain ⟨h1, h2⟩ := runEpisode_spec cfg a L env hrun hw hvals hbytes
  constructor
  · intro i hi
    obtain ⟨tr, e, q, hidx, _, hterm, _, _⟩ := h1 i hi
    exact ⟨tr, e, hidx, hterm⟩
  · have hpos : 0 < L.length := List.length_pos.2 hL
    obtain ⟨trP, eP, q, hidxP, hqP, _htermP, hobsP, hrewP⟩ := h1 (L.length - 1) (by omega)
    obtain ⟨trL, eL, hidxL, htermL, hobsL, hrewL⟩ := h2
    have hgl : L.getLast? = some q := by
      rw [List.getLast?_eq_getElem? L]
      exact hqP
    have hlo : lastObsOf L env = q.1 := by simp [lastObsOf, hgl]
    have hlr : lastRewardOf cfg L env = cfg.rewardFn q.1 := by simp [lastRewardOf, hgl]
    refine ⟨trP, eP, trL, eL, hidxP, hidxL, htermL, ?_, ?_⟩
    · rw [hobsL, hlo, hobsP]
    · rw [hrewL, hlr, hrewP]

/-- C2: a zero-length payload always decodes to the end-of-simulation
marker (never a numeric vector, in particular never a zero vector), for
every configured arity; and a well-formed non-empty payload never decodes to
the marker. -/
theorem claim2_sentinel_detection (w nObs : Nat) :
    decode_observation w nObs [] = .ok .endOfSimulation ∧
    (∀ bytes : List Nat, bytes ≠ [] → bytes.length = (nObs + 1) * w →
      ∃ o t, decode_observation w nObs bytes = .ok (.obs o t)) := by
  constructor
  · rw [decode_observation, if_pos rfl]
  · intro bytes hne hlen
    refine ⟨decodeVector w nObs bytes, decodeScalar (bytes.drop (nObs * w)), ?_⟩
    rw [decode_observation, if_neg hne, if_pos hlen]

/-- C3: `receive()` assembles exactly one complete logical frame per call,
looping over arbitrarily chunked partial transport reads, and delivery is
FIFO: when the peer has sent two frames, the first call returns the first
frame and the next call returns the second, with neither dropped, merged nor
reordered. -/
theorem claim3_strict_alternation_fifo (w : Nat) (A B rest : List Nat)
    (s : ReceiveState) (hw : 0 < w) (hA : A.length = w) (hB : B.length = w)
    (hbytes : totalBytes s = A ++ (B ++ rest)) :
    ∃ s₁ s₂ : ReceiveState,
      receive w s = .ok (.payload A, s₁) ∧
      receive w s₁ = .ok (.payload B, s₂) ∧
      totalBytes s₂ = rest := by
  have hle₁ : w ≤ (totalBytes s).length := by
    rw [hbytes]
    simp only [List.length_append]
    omega
  obtain ⟨s₁, hr₁, hb₁⟩ := receive_complete w s hle₁
  have htake₁ : (totalBytes s).take w = A := by
    rw [hbytes, List.take_left' hA]
  have hdrop₁ : (totalBytes s).drop w = B ++ rest := by
    rw [hbytes, List.drop_left' hA]
  rw [htake₁] at hr₁
  rw [hdrop₁] at hb₁
  have hle₂ : w ≤ (totalBytes s₁).length := by
    rw [hb₁]
    simp only [List.length_append]
    omega
  obtain ⟨s₂, hr₂, hb₂⟩ := receive_complete w s₁ hle₂
  have htake₂ : (totalBytes s₁).take w = B := by
    rw [hb₁, List.take_left' hB]
  have hdrop₂ : (totalBytes s₁).drop w = rest := by
    rw [hb₁, List.drop_left' hB]
  rw [htake₂] at hr₂
  rw [hdrop₂] at hb₂
  exact ⟨s₁, s₂, hr₁, hr₂, hb₂⟩

/-- C4: a truncated frame (fewer bytes than the configured fixed width and
then end of stream) makes the in-progress `step` raise `FramingError` — and
likewise an in-progress `reset` — after which every subsequent `step` call
is rejected as a protocol violation with the environment left unchanged (no
reconnection attempt, no automatic retry). -/
theorem claim4_fatal_on_desync (cfg : Config) (env : SimulinkEnv) (a : List Nat)
    (hrun : env.phase = .running)
    (hne : totalBytes env.recvState ≠ [])
    (hlt : (totalBytes env.recvState).length < cfg.frameWidth) :
    (∃ e₁ : SimulinkEnv,
      step cfg env a = .fail .framingError e₁ ∧ e₁.phase = .errored ∧
      (∀ a' : List Nat, step cfg e₁ a' = .fail .protocolViolation e₁)) ∧
    (∀ (seed : Option Nat) (options : List (String × Nat)) (chunks : List (List Nat)),
      chunks.flatten ≠ [] → chunks.flatten.length < cfg.frameWidth →
      ∃ e₂ : SimulinkEnv,
        reset cfg env seed options (some chunks) = .fail .framingError e₂ ∧
        e₂.phase = .errored ∧
        (∀ a' : List Nat, step cfg e₂ a' = .fail .protocolViolation e₂)) := by
  constructor
  · refine ⟨{ env with phase := .errored }, step_truncated_frame cfg env a hrun hne hlt,
      rfl, ?_⟩
    intro a'
    exact step_not_running cfg _ a' (by simp)
  · intro seed options chunks hcne hclt
    refine ⟨_, reset_truncated_frame cfg env seed options chunks
      (by rw [hrun]; simp) (by rw [hrun]; simp) hcne hclt, rfl, ?_⟩
    intro a'
    exact step_not_running cfg _ a' (by simp)

/-- Witness for C1 at the concrete two-frame episode. -/
theorem claim1_terminal_duplication_witness :
    (∀ i, i < witL.length →
      ∃ tr e, (runEpisode witCfg [0] (witL.length + 1) witEnv)[i]? =
        some (StepOut.ok tr e) ∧ tr.terminated = false) ∧
    (∃ trPrev ePrev trLast eLast,
      (runEpisode witCfg [0] (witL.length + 1) witEnv)[witL.length - 1]? =
        some (StepOut.ok trPrev ePrev) ∧
      (runEpisode witCfg [0] (witL.length + 1) witEnv)[witL.length]? =
        some (StepOut.ok trLast eLast) ∧
      trLast.terminated = true ∧
      trLast.observation = trPrev.observation ∧
      trLast.reward = trPrev.reward) :=
  claim1_terminal_duplication witCfg [0] witEnv witL (by decide) (by decide)
    (by decide) (by decide) (by decide)

/-- Witness for C2 at arity 1, width 1, payload [3, 4]. -/
theorem claim2_sentinel_detection_witness :
    decode_observation 1 1 [] = .ok .endOfSimulation ∧
    (∃ o t, decode_observation 1 1 [3, 4] = .ok (.obs o t)) :=
  ⟨(claim2_sentinel_detection 1 1).1,
   (claim2_sentinel_detection 1 1).2 [3, 4] (by decide) (by decide)⟩

/-- Witness for C3: two two-byte frames split across three partial reads. -/
theorem claim3_strict_alternation_fifo_witness :
    ∃ s₁ s₂ : ReceiveState,
      receive 2 (⟨[1], [[2, 3], [4]]⟩ : ReceiveState) = .ok (.payload [1, 2], s₁) ∧
      receive 2 s₁ = .ok (.payload [3, 4], s₂) ∧
      totalBytes s₂ = [] :=
  claim3_strict_alternation_fifo 2 [1, 2] [3, 4] [] ⟨[1], [[2, 3], [4]]⟩
    (by decide) (by decide) (by decide) (by decide)

/-- Witness for C4 at the concrete truncated-frame environment. -/
theorem claim4_fatal_on_desync_witness :
    (∃ e₁ : SimulinkEnv,
      step witCfg witEnvTrunc [0] = .fail .framingError e₁ ∧ e₁.phase = .errored ∧
      (∀ a' : List Nat, step witCfg e₁ a' = .fail .protocolViolation e₁)) ∧
    (∀ (seed : Option Nat) (options : List (String × Nat)) (chunks : List (List Nat)),
      chunks.flatten ≠ [] → chunks.flatten.length < witCfg.frameWidth →
      ∃ e₂ : SimulinkEnv,
        reset witCfg witEnvTrunc seed options (some chunks) = .fail .framingError e₂ ∧
        e₂.phase = .errored ∧
        (∀ a' : List Nat, step witCfg e₂ a' = .fail .protocolViolation e₂)) :=
  claim4_fatal_on_desync witCfg witEnvTrunc [0] (by decide) (by decide) (by decide)

/-- C5: `close()` is idempotent: from any episode phase it moves the
environment to CLOSED, and a second immediate `close()` is a no-op; as a
total pure function of the state it can neither raise nor block. -/
theorem claim5_idempotent_close (env : SimulinkEnv) :
    (close env).phase = .closed ∧ close (close env) = close env :=
  ⟨rfl, rfl⟩

/-- C6: an environment constructed with the debug flag set spawns no
background simulation execution context — not at construction and not
during any reset — while `reset()` still blocks waiting for an external
peer to connect. -/
theorem claim6_debug_mode_non_supervision (cfg : Config) (seed : Option Nat)
    (options : List (String × Nat)) :
    (mkEnv true).supervisorSpawned = false ∧
    (∀ peer, (resetOutEnv (reset cfg (mkEnv true) seed options peer)).supervisorSpawned
      = false) ∧
    (∃ e : SimulinkEnv, reset cfg (mkEnv true) seed options none = .blocked e ∧
      e.phase = .awaitingInitialObservation ∧ e.supervisorSpawned = false) := by
  refine ⟨rfl, ?_, ?_⟩
  · intro peer
    cases peer with
    | none =>
        rw [reset_blocked cfg (mkEnv true) seed options (by simp [mkEnv]) (by simp [mkEnv])]
        rfl
    | some chunks =>
        unfold reset
        rw [if_neg (by simp [mkEnv])]
        simp only
        split
        · rfl
        · rfl
        · split <;> rfl
  · refine ⟨_, reset_blocked cfg (mkEnv true) seed options (by simp [mkEnv])
      (by simp [mkEnv]), rfl, rfl⟩

/-- C7: encoding a numeric vector little-endian at the configured fixed
width and decoding the resulting bytes as an observation of the same shape
reproduces the vector exactly.  Scalars are modelled by their `w`-byte
machine representations, so byte-level exactness covers both the
integer-typed (exact) and real-typed (bit-pattern-preserving, hence within
any epsilon) clauses. -/
theorem claim7_frame_roundtrip (w : Nat) (vs : List Nat) (t : Nat)
    (hw : 0 < w) (hvs : ∀ x ∈ vs, x < 256 ^ w) (ht : t < 256 ^ w) :
    decode_observation w vs.length (encode_action w (vs ++ [t])) = .ok (.obs vs t) := by
  have hsplit : encode_action w (vs ++ [t]) = frameBytesOf w vs t := by
    simp [encode_action, frameBytesOf, List.map_append]
  rw [hsplit]
  exact decode_observation_frameBytesOf w vs t hw hvs ht

/-- C8: every call on the environment-facing API has the advertised shape:
a successful `step(action)` returns the five-tuple (observation, reward,
terminated, truncated, info) and a successful `reset(seed, options)` returns
the (observation, info) pair; the only other outcomes are a raised error or,
for reset, blocking on the peer. -/
theorem claim8_api_tuple_shapes (cfg : Config) (env : SimulinkEnv) (a : List Nat)
    (seed : Option Nat) (options : List (String × Nat))
    (peer : Option (List (List Nat))) :
    ((∃ tr e, step cfg env a = StepOut.ok tr e ∧
        tr = { observation := tr.observation, reward := tr.reward,
               terminated := tr.terminated, truncated := tr.truncated,
               info := tr.info }) ∨
      (∃ err e, step cfg env a = StepOut.fail err e)) ∧
    ((∃ obs info e, reset cfg env seed options peer = ResetOut.ok obs info e) ∨
      (∃ e, reset cfg env seed options peer = ResetOut.blocked e) ∨
      (∃ err e, reset cfg env seed options peer = ResetOut.fail err e)) := by
  constructor
  · cases h : step cfg env a with
    | ok tr e => exact Or.inl ⟨tr, e, rfl, rfl⟩
    | fail err e => exact Or.inr ⟨err, e, rfl⟩
  · cases h : reset cfg env seed options peer with
    | ok obs info e => exact Or.inl ⟨obs, info, e, rfl⟩
    | blocked e => exact Or.inr (Or.inl ⟨e, rfl⟩)
    | fail err e => exact Or.inr (Or.inr ⟨err, e, rfl⟩)

/-- C9: after every successful step that returns a normal (non-sentinel)
transition, the returned info dictionary contains the key
"simulation time [s]" bound to the simulation timestamp carried in the
inbound observation frame. -/
theorem claim9_info_simulation_time (cfg : Config) (env : SimulinkEnv) (a : List Nat)
    (o : List Nat) (t : Nat) (rest : List Nat)
    (hrun : env.phase = .running) (hw : 0 < cfg.w)
    (hlen : o.length = cfg.nObs)
    (ho : ∀ x ∈ o, x < 256 ^ cfg.w) (ht : t < 256 ^ cfg.w)
    (hbytes : totalBytes env.recvState = frameBytesOf cfg.w o t ++ rest) :
    ∃ tr e, step cfg env a = StepOut.ok tr e ∧ tr.terminated = false ∧
      tr.info.lookup "simulation time [s]" = some t := by
  obtain ⟨e', hstep, _⟩ := step_normal cfg env a o t rest hrun hw hlen ho ht hbytes
  refine ⟨_, e', hstep, rfl, ?_⟩
  simp [List.lookup]

/-- C10: every evaluation of the cart-pole parameter script sets the
initial pole angle to 24*rand(1)-12, so the sampled angle always lies in
[-12, 12) degrees, while gravity, cart mass, pole mass, pole half-length
and step time are the fixed constants 9.80665, 1, 0.1, 0.5 and 0.001. -/
theorem claim10_cartpole_parameters (r : ℚ) (h0 : 0 ≤ r) (h1 : r < 1) :
    (cartpoleParams r).theta0_deg = 24 * r - 12 ∧
    -12 ≤ (cartpoleParams r).theta0_deg ∧
    (cartpoleParams r).theta0_deg < 12 ∧
    (cartpoleParams r).g = 9.80665 ∧
    (cartpoleParams r).cart_mass_kg = 1 ∧
    (cartpoleParams r).pole_mass_kg = 0.1 ∧
    (cartpoleParams r).pole_length_m = 0.5 ∧
    (cartpoleParams r).dT = 0.001 := by
  refine ⟨rfl, ?_, ?_, rfl, rfl, rfl, rfl, rfl⟩
  · show (-12 : ℚ) ≤ 24 * r - 12
    linarith
  · show (24 * r - 12 : ℚ) < 12
    linarith

/-- Witness for C7 at width 1 and vector [5, 7]. -/
theorem claim7_frame_roundtrip_witness :
    decode_observation 1 1 (encode_action 1 [5, 7]) = .ok (.obs [5] 7) :=
  claim7_frame_roundtrip 1 [5] 7 (by decide) (by decide) (by decide)

/-- Witness for C9 at the concrete environment: the first frame carries
timestamp 7. -/
theorem claim9_info_simulation_time_witness :
    ∃ tr e, step witCfg witEnv [0] = StepOut.ok tr e ∧ tr.terminated = false ∧
      tr.info.lookup "simulation time [s]" = some 7 :=
  claim9_info_simulation_time witCfg witEnv [0] [5] 7 [9, 11] (by decide)
    (by decide) (by decide) (by decide) (by decide) (by decide)

/-- Witness for C10 at the draw r = 1/2. -/
theorem claim10_cartpole_parameters_witness :
    (cartpoleParams ((1 : ℚ)/2)).theta0_deg = 24 * ((1 : ℚ)/2) - 12 ∧
    -12 ≤ (cartpoleParams ((1 : ℚ)/2)).theta0_deg ∧
    (cartpoleParams ((1 : ℚ)/2)).theta0_deg < 12 ∧
    (cartpoleParams ((1 : ℚ)/2)).g = 9.80665 ∧
    (cartpoleParams ((1 : ℚ)/2)).cart_mass_kg = 1 ∧
    (cartpoleParams ((1 : ℚ)/2)).pole_mass_kg = 0.1 ∧
    (cartpoleParams ((1 : ℚ)/2)).pole_length_m = 0.5 ∧
    (cartpoleParams ((1 : ℚ)/2)).dT = 0.001 :=
  claim10_cartpole_parameters ((1 : ℚ)/2) (by norm_num) (by norm_num)

end SimulinkGym
